import Mathlib

/-!
Verification of the request-dispatch and conditional-operation layer of the
Radicale CalDAV server (`radicale/__init__.py`).

The development shallowly embeds the Python source: pure string/byte
manipulation from the Python standard library (`str.strip`, `str.split`,
`posixpath.normpath`, `base64.b64decode`, `bytes.decode`, `str.encode`) is
translated to executable Lean functions over `List Char` / `List Nat`
(bytes are `Nat`s below 256); the stateful response-building primitives of
`BaseHTTPRequestHandler` (`send_response`, `send_header`, `end_headers`,
`wfile.write`) are modelled as a pure `Response` record that each handler
assembles; Python exceptions escaping a handler are modelled as explicit
`crash` / `Except.error` outcomes.  Collaborator modules of the repository
that are outside the provided source (`radicale.ical`, `radicale.xmlutils`,
`radicale.acl`) are modelled from the specification's interface section and
are marked `Modelled from the spec:` in their doc comments.
-/

/-! ## Python string primitives over character lists -/

/-- Python `s.split(sep)` for a single-character separator: splits on every
occurrence, keeping empty fields; the result is always nonempty
(`"".split("/") == [""]`). -/
def splitOnChar (sep : Char) : List Char → List (List Char)
  | [] => [[]]
  | c :: rest =>
    let r := splitOnChar sep rest
    if c = sep then [] :: r
    else
      match r with
      | g :: gs => (c :: g) :: gs
      | [] => [[c]]

/-- Python `s.strip("/")`: removes leading and trailing `'/'` characters. -/
def stripSlashesL (l : List Char) : List Char :=
  ((l.dropWhile (· = '/')).reverse.dropWhile (· = '/')).reverse

/-- Python whitespace, as recognised by `str.strip()`. -/
def isPySpace (c : Char) : Bool :=
  c = ' ' || c = '\t' || c = '\n' || c = '\x0d' || c = '\x0b' || c = '\x0c'

/-- Python `s.strip()`: removes leading and trailing whitespace. -/
def pyStripWs (l : List Char) : List Char :=
  ((l.dropWhile isPySpace).reverse.dropWhile isPySpace).reverse

/-- Python `s.lstrip(chars)`: removes leading characters that belong to the
character set `chars` (not the prefix string `chars` — this is the semantics
the source relies on in `authorization.lstrip("Basic")`). -/
def pyLstrip (chars : String) (l : List Char) : List Char :=
  l.dropWhile (fun c => chars.toList.contains c)

/-- Join a list of components with a single-character separator
(Python `sep.join(comps)`). -/
def joinSep (sep : Char) : List (List Char) → List Char
  | [] => []
  | [x] => x
  | x :: xs => x ++ sep :: joinSep sep xs

/-- `CPython posixpath.normpath`, translated clause by clause: collapses
repeated separators and `.` segments, resolves `..` against previous
segments, but keeps leading `..` segments (they have nothing to cancel
against).  The empty path normalises to `"."`. -/
def pyNormpathL (path : List Char) : List Char :=
  if path = [] then ['.']
  else
    let initialSlashes : Nat :=
      if path.take 1 = ['/'] then
        (if path.take 2 = ['/', '/'] ∧ path.take 3 ≠ ['/', '/', '/'] then 2 else 1)
      else 0
    let comps := splitOnChar '/' path
    let newComps := comps.foldl (fun acc comp =>
      if comp = [] ∨ comp = ['.'] then acc
      else if comp ≠ ['.', '.'] ∨ (initialSlashes = 0 ∧ acc = []) ∨
              acc.getLast? = some ['.', '.'] then acc ++ [comp]
      else if acc ≠ [] then acc.dropLast
      else acc) []
    let p := List.replicate initialSlashes '/' ++ joinSep '/' newComps
    if p = [] then ['.'] else p

/-- Python `s.endswith(".ics")` on a character list. -/
def endsWithIcs (l : List Char) : Bool :=
  ['.', 'i', 'c', 's'].isSuffixOf l

/-! ## The path resolver (`CalendarHTTPHandler._calendar`) -/

/-- The `.ics`-stripping and two-segment truncation applied to the split
normalised path in the `_calendar` property: if the list of segments is
nonempty, pop a trailing segment ending in `.ics`, then join at most the
first two remaining segments into the calendar address.  The Python guard
`if attributes:` corresponds to the `none` branch. -/
def icsAdjust (attributes : List (List Char)) : Option (List Char) :=
  if attributes = [] then none
  else if endsWithIcs (attributes.getLast?.getD []) then
    some (joinSep '/' (attributes.dropLast.take 2))
  else some (joinSep '/' (attributes.take 2))

/-- `CalendarHTTPHandler._calendar` path computation:
`posixpath.normpath(self.path.strip("/")).split("/")`, then `icsAdjust`. -/
def calendarAddressL (path : List Char) : Option (List Char) :=
  icsAdjust (splitOnChar '/' (pyNormpathL (stripSlashesL path)))

/-- The calendar address resolved from a raw request path, as a `String`
(`none` would mean the resolver produced no calendar). -/
def calendarAddress (p : String) : Option String :=
  (calendarAddressL p.toList).map (fun l => String.mk l)

/-! ## Byte-level codecs (Python `bytes.decode` / `str.encode`) -/

/-- Is `b` a UTF-8 continuation byte? -/
def utf8Cont (b : Nat) : Bool := 128 ≤ b && b ≤ 191

/-- Strict UTF-8 decoding of a byte string, as performed by Python
`bytes.decode("utf-8")`: rejects truncated sequences, stray continuation
bytes, overlong encodings, surrogates and code points above `U+10FFFF`.
Returns `none` where Python raises `UnicodeDecodeError`. -/
def utf8Decode : List Nat → Option (List Char)
  | [] => some []
  | b :: rest =>
    if b ≤ 127 then (utf8Decode rest).map (fun cs => Char.ofNat b :: cs)
    else if 194 ≤ b && b ≤ 223 then
      match rest with
      | b1 :: rest2 =>
        if utf8Cont b1 then
          (utf8Decode rest2).map (fun cs =>
            Char.ofNat ((b - 192) * 64 + (b1 - 128)) :: cs)
        else none
      | [] => none
    else if 224 ≤ b && b ≤ 239 then
      match rest with
      | b1 :: b2 :: rest2 =>
        let lo := if b = 224 then 160 else 128
        let hi := if b = 237 then 159 else 191
        if (lo ≤ b1 && b1 ≤ hi) && utf8Cont b2 then
          (utf8Decode rest2).map (fun cs =>
            Char.ofNat ((b - 224) * 4096 + (b1 - 128) * 64 + (b2 - 128)) :: cs)
        else none
      | _ => none
    else if 240 ≤ b && b ≤ 244 then
      match rest with
      | b1 :: b2 :: b3 :: rest2 =>
        let lo := if b = 240 then 144 else 128
        let hi := if b = 244 then 143 else 191
        if (lo ≤ b1 && b1 ≤ hi) && utf8Cont b2 && utf8Cont b3 then
          (utf8Decode rest2).map (fun cs =>
            Char.ofNat ((b - 240) * 262144 + (b1 - 128) * 4096 +
              (b2 - 128) * 64 + (b3 - 128)) :: cs)
        else none
      | _ => none
    else none

/-- Python `bytes.decode("iso8859-1")`: every byte decodes to the character
with the same code point; this decoding never fails. -/
def latin1Decode (bytes : List Nat) : String :=
  String.mk (bytes.map (fun b => Char.ofNat (b % 256)))

/-- Outcome of one Python `text.decode(charset)` call. -/
inductive CodecRes where
  | ok (s : String)
  | unicodeError
  | lookupError
deriving DecidableEq

/-- The charset names this embedding's codec registry knows.  The registry
is restricted to the two charsets the module itself introduces as
fallbacks; any other name behaves as an unknown codec, for which Python
raises `LookupError` — an exception the `except UnicodeDecodeError` clause
of `_decode` does not catch. -/
def knownCodec (c : String) : Bool := c = "utf-8" || c = "iso8859-1"

/-- Python `text.decode(charset)`: for a known codec, the decoded string or
a `UnicodeDecodeError`; for an unknown codec name, a `LookupError`. -/
def pydecode (charset : String) (text : List Nat) : CodecRes :=
  if charset = "utf-8" then
    match utf8Decode text with
    | some cs => .ok (String.mk cs)
    | none => .unicodeError
  else if charset = "iso8859-1" then .ok (latin1Decode text)
  else .lookupError

/-- Big-endian UTF-8 encoding of one code point. -/
def utf8EncodeChar (n : Nat) : List Nat :=
  if n ≤ 127 then [n]
  else if n ≤ 2047 then [192 + n / 64, 128 + n % 64]
  else if n ≤ 65535 then [224 + n / 4096, 128 + (n / 64) % 64, 128 + n % 64]
  else [240 + n / 262144, 128 + (n / 4096) % 64, 128 + (n / 64) % 64, 128 + n % 64]

/-- Modelled from the spec: `answer_text.encode(self._encoding)`, the
response-body encoding under the configured charset.  The model encodes
under UTF-8 (the stock configuration default) for any charset name; no
claim depends on the byte values, only on the body length being consistent
with the `Content-Length` header computed from the same bytes. -/
def pyencode (s : String) : List Nat :=
  (s.toList.map (fun c => utf8EncodeChar c.toNat)).flatten

/-! ## The charset resolver (`CalendarHTTPHandler._decode`) -/

/-- Splitting on a multi-character separator, Python `s.split(sep)`
semantics for a nonempty `sep` (left-to-right, non-overlapping).  The
`Nat` argument is structural fuel, instantiated with the list length. -/
def splitOnSeqAux (sep : List Char) : Nat → List Char → List (List Char)
  | _, [] => [[]]
  | 0, l => [l]
  | fuel + 1, c :: rest =>
    if sep.isPrefixOf (c :: rest) then
      [] :: splitOnSeqAux sep fuel ((c :: rest).drop sep.length)
    else
      match splitOnSeqAux sep fuel rest with
      | g :: gs => (c :: g) :: gs
      | [] => [c :: rest]

def splitOnSeq (sep : String) (l : List Char) : List (List Char) :=
  splitOnSeqAux sep.toList l.length l

/-- The charset named by the request's `Content-Type` header:
`content_type.split("charset=")[1].strip()` when `"charset=" in
content_type`, i.e. the text between the first and second occurrence of
`"charset="`, stripped of whitespace. -/
def declaredCharset (ct : String) : Option String :=
  match splitOnSeq "charset=" ct.toList with
  | _ :: second :: _ => some (String.mk (pyStripWs second))
  | _ => none

/-- The ordered charset candidate list built by `_decode`: the declared
`Content-Type` charset if present, then the configured default
(`self._encoding`), then `"utf-8"`, then `"iso8859-1"`. -/
def buildCharsets (contentType : Option String) (enc : String) : List String :=
  (match contentType with
   | some ct =>
     match declaredCharset ct with
     | some c => [c]
     | none => []
   | none => []) ++ [enc, "utf-8", "iso8859-1"]

/-- Outcome of `_decode`: a decoded string, an uncaught `LookupError` from
an unknown codec name, or the final `raise` after every candidate failed
with `UnicodeDecodeError`. -/
inductive PyDecodeOut where
  | ok (s : String)
  | raiseLookup
  | raiseAllFailed
deriving DecidableEq

/-- The candidate loop of `_decode`: try each charset in order, returning
the first successful decoding; `UnicodeDecodeError` moves to the next
candidate, any other exception (`LookupError`) propagates, and exhausting
the list reaches the final `raise`. -/
def tryDecode (text : List Nat) : List String → PyDecodeOut
  | [] => .raiseAllFailed
  | c :: cs =>
    match pydecode c text with
    | .ok s => .ok s
    | .unicodeError => tryDecode text cs
    | .lookupError => .raiseLookup

/-- `CalendarHTTPHandler._decode(text)` for a request with the given
`Content-Type` header and configured default charset `enc`. -/
def udecode (contentType : Option String) (enc : String) (text : List Nat) :
    PyDecodeOut :=
  tryDecode text (buildCharsets contentType enc)

/-! ## Base64 and Basic-credential extraction (`_check`, lines 70-75) -/

/-- Value of one base64 alphabet byte. -/
def b64Val (b : Nat) : Option Nat :=
  if 65 ≤ b ∧ b ≤ 90 then some (b - 65)
  else if 97 ≤ b ∧ b ≤ 122 then some (b - 71)
  else if 48 ≤ b ∧ b ≤ 57 then some (b + 4)
  else if b = 43 then some 62
  else if b = 47 then some 63
  else none

/-- `base64.b64decode` on a canonical (RFC 4648, correctly padded) input;
`none` where Python raises `binascii.Error`.  (Python additionally discards
stray non-alphabet bytes before decoding; the inputs reaching this point
have already been stripped of the surrounding whitespace, and no claim
exercises non-canonical inputs.) -/
def b64decodeBytes : List Nat → Option (List Nat)
  | [] => some []
  | c1 :: c2 :: c3 :: c4 :: rest =>
    match b64Val c1, b64Val c2 with
    | some v1, some v2 =>
      if c3 = 61 ∧ c4 = 61 ∧ rest = [] then some [v1 * 4 + v2 / 16]
      else
        match b64Val c3 with
        | some v3 =>
          if c4 = 61 ∧ rest = [] then
            some [v1 * 4 + v2 / 16, (v2 % 16) * 16 + v3 / 4]
          else
            match b64Val c4 with
            | some v4 =>
              match b64decodeBytes rest with
              | some tail =>
                some ((v1 * 4 + v2 / 16) :: ((v2 % 16) * 16 + v3 / 4) ::
                  ((v3 % 4) * 64 + v4) :: tail)
              | none => none
            | none => none
        | none => none
    | _, _ => none
  | _ => none

/-- Python `s.encode("ascii")`: `none` (a `UnicodeEncodeError`) if any
character is outside ASCII. -/
def encodeAscii (l : List Char) : Option (List Nat) :=
  if l.all (fun c => c.toNat < 128) then some (l.map Char.toNat) else none

/-- Outcome of credential extraction: a user/password pair, or an uncaught
exception propagating out of the request handler. -/
inductive CredRes where
  | ok (user password : Option String)
  | raised
deriving DecidableEq

/-- Credential extraction of `_check`: with no `Authorization` header, user
and password are both undefined (`None`); with a header, the code computes
`authorization.lstrip("Basic").strip().encode("ascii")`, base64-decodes it,
decodes the bytes through `request._decode`, and unpacks
`user, password = decoded.split(":")` — which raises a `ValueError`
(modelled as `.raised`) unless the split yields exactly two fields.  Any
exception earlier in the pipeline likewise propagates out of the handler. -/
def extractCreds (contentType : Option String) (enc : String)
    (authHeader : Option String) : CredRes :=
  match authHeader with
  | none => .ok none none
  | some a =>
    match encodeAscii (pyStripWs (pyLstrip "Basic" a.toList)) with
    | none => .raised
    | some challenge =>
      match b64decodeBytes challenge with
      | none => .raised
      | some payload =>
        match udecode contentType enc payload with
        | .ok s =>
          match splitOnChar ':' s.toList with
          | [u, p] => .ok (some (String.mk u)) (some (String.mk p))
          | _ => .raised
        | _ => .raised

/-! ## Data model: storage collaborator and HTTP responses -/

/-- Modelled from the spec: one calendar item of the storage collaborator
(`radicale.ical`, outside the provided source), carrying its name, its
item-level ETag and its serialized text. -/
structure Item where
  name : String
  etag : String
  text : String
deriving DecidableEq

/-- Modelled from the spec: the `ical.Calendar` storage collaborator —
an optional owner, separately ETag-versioned items, timezone serializations,
the whole-calendar serialization `text`, the aggregate `etag` and the
`last_modified` timestamp. -/
structure Calendar where
  owner : Option String
  items : List Item
  timezones : List String
  text : String
  etag : String
  lastModified : String
deriving DecidableEq

/-- Modelled from the spec: `Calendar.get_item(name)` — the item with the
given name, if any; looking up `None` (no item identifier) finds nothing. -/
def get_item (cal : Calendar) (name : Option String) : Option Item :=
  match name with
  | some n => cal.items.find? (fun it => it.name == n)
  | none => none

/-- Modelled from the spec: `xmlutils.name_from_path(path, calendar)` — the
Item Identifier, i.e. the final path segment, present exactly when the
request targets a single calendar item (segment ending in the `.ics`
item-file suffix) rather than the whole calendar. -/
def name_from_path (path : String) : Option String :=
  match (splitOnChar '/' (stripSlashesL path.toList)).getLast? with
  | some last => if endsWithIcs last then some (String.mk last) else none
  | none => none

/-- Modelled from the spec: the new ETag the storage collaborator assigns
to an item it (re)writes; the spec only requires it to be determined by the
stored content. -/
def itemEtag (text : String) : String := "etag-" ++ text

/-- Modelled from the spec: `xmlutils.put(path, text, calendar)` — the
storage mutation entry point: replace or insert the item addressed by the
path (whole-calendar replacement when the path names no item). -/
def store_put (path : String) (text : String) (cal : Calendar) : Calendar :=
  match name_from_path path with
  | some n =>
    { cal with items := ⟨n, itemEtag text, text⟩ ::
        cal.items.filter (fun it => it.name ≠ n) }
  | none => { cal with text := text, etag := itemEtag text }

/-- Modelled from the spec: the storage state after
`xmlutils.delete(path, calendar)` — the addressed item is removed. -/
def store_delete (path : String) (cal : Calendar) : Calendar :=
  match name_from_path path with
  | some n => { cal with items := cal.items.filter (fun it => it.name ≠ n) }
  | none => cal

/-- Modelled from the spec: the deletion-confirmation payload
(`confirmationBytes`) returned by `xmlutils.delete(path, calendar)`. -/
def deleteConfirmation (path : String) : List Nat := pyencode path

/-- Modelled from the spec: `ical.serialize(headers=calendar.headers,
items=calendar.timezones + [item])` — the serialization of one item
together with the calendar's timezones. -/
def serialize (cal : Calendar) (item : Item) : String :=
  String.join cal.timezones ++ item.text

/-- The response a handler assembles through `send_response` /
`send_header` / `end_headers` / `wfile.write`: the status code, the reply
headers in the order sent, whether `end_headers` ran, and the bytes written
to the socket body. -/
structure Response where
  status : Option Nat
  rheaders : List (String × String)
  ended : Bool
  body : List Nat
deriving DecidableEq

/-- `headers.get(key)` on the reply-header list (first match). -/
def hget (hs : List (String × String)) (k : String) : Option String :=
  (hs.find? (fun kv => kv.1 == k)).map (fun kv => kv.2)

/-- The bare `412 Precondition Failed` reply (`send_response` only: no
headers, no `end_headers`, no body). -/
def resp412 : Response := ⟨some 412, [], false, []⟩

/-- Python truthiness of an optional string (`None` and `""` are falsy). -/
def optStrTruthy : Option String → Bool
  | none => false
  | some s => !(s == "")

/-! ## The authorization gate (`_check`) -/

/-- The access-control collaborator interface, modelled from the spec:
`acl.has_right(owner, user, password)`; the owner argument is the
calendar's (possibly undefined) owner. -/
def AclFun : Type := Option String → Option String → Option String → Bool

/-- Outcome of running a verb handler through the `check_rights` wrapper:
the wrapped handler ran (producing its effects `a`), or the gate
short-circuited with a `401` response and the handler never ran, or an
uncaught exception aborted the request. -/
inductive CheckOutcome (α : Type) where
  | handled (a : α)
  | denied (r : Response)
  | crashed
deriving DecidableEq

/-- The `WWW-Authenticate` challenge header sent on denial. -/
def wwwAuthHeader : String × String :=
  ("WWW-Authenticate", "Basic realm=\"Radicale Server - Password Required\"")

/-- The full denial reply of `_check`: `401 Unauthorized`, the Basic
challenge header, `end_headers`, no body. -/
def deniedResponse : Response := ⟨some 401, [wwwAuthHeader], true, []⟩

/-- `_check(request, function)`, the authorization gate.  `aclOpt` is
`request.server.acl` (absent when no access-control policy is configured),
`calOpt` the resolved calendar, `personal` the `PERSONAL` deployment flag
(modelled from the spec: deployment configuration treating ownerless
calendars as personal, referenced by the gate but set outside the provided
source), `authHeader` the `Authorization` header, and `contentType`/`enc`
feed the `request._decode` used on the credential bytes.  `handler` stands
for the effects of the wrapped verb handler. -/
def checkRights {α : Type} (aclOpt : Option AclFun) (personal : Bool)
    (calOpt : Option Calendar) (authHeader contentType : Option String)
    (enc : String) (handler : α) : CheckOutcome α :=
  match calOpt with
  | none => .handled handler
  | some cal =>
    match aclOpt with
    | none => .handled handler
    | some acl =>
      if cal.owner = none ∧ personal = true then .handled handler
      else
        match extractCreds contentType enc authHeader with
        | .raised => .crashed
        | .ok u p =>
          if acl cal.owner u p then .handled handler
          else .denied deniedResponse

/-! ## Verb handlers: HEAD, GET, DELETE, PUT -/

/-- A handler's reply together with the request object's `_answer`
buffer. -/
structure HandlerState where
  resp : Response
  answer : Option (List Nat)
deriving DecidableEq

/-- The shared success tail of `do_HEAD`: encode the answer text, reply
`200 OK` with `Content-Length`, `Content-Type`, `Last-Modified` and `ETag`
headers, and buffer the answer without writing it. -/
def headOk (cal : Calendar) (answerText etag : String) : HandlerState :=
  let answer := pyencode answerText
  { resp := ⟨some 200,
      [("Content-Length", toString answer.length),
       ("Content-Type", "text/calendar"),
       ("Last-Modified", cal.lastModified),
       ("ETag", etag)], true, []⟩,
    answer := some answer }

/-- `do_HEAD` (without its decorators): serve the item named by the path —
`410 Gone` with a cleared answer if the item is missing — or the whole
calendar. -/
def do_HEAD (path : String) (cal : Calendar) : HandlerState :=
  let item_name := name_from_path path
  if optStrTruthy item_name then
    match get_item cal item_name with
    | some item => headOk cal (serialize cal item) item.etag
    | none => { resp := ⟨some 410, [], false, []⟩, answer := none }
  else headOk cal cal.text cal.etag

/-- `do_GET`: run `do_HEAD`, then write the buffered answer as the body if
it is truthy (neither `None` nor empty). -/
def do_GET (path : String) (cal : Calendar) : HandlerState :=
  let h := do_HEAD path cal
  match h.answer with
  | some a =>
    if a ≠ [] then { h with resp := { h.resp with body := h.resp.body ++ a } }
    else h
  | none => h

/-- Result of `do_DELETE`: the reply, the storage state afterwards and the
`_answer` buffer. -/
structure DeleteResult where
  resp : Response
  cal : Calendar
  answer : Option (List Nat)
deriving DecidableEq

/-- `do_DELETE` (without its decorators): delete the addressed item and
reply `204 No Content` with the confirmation payload when the item exists
and `If-Match` (defaulting to the item's ETag) equals the item's ETag;
otherwise reply bare `412 Precondition Failed` and touch nothing. -/
def do_DELETE (ifMatch : Option String) (path : String) (cal : Calendar) :
    DeleteResult :=
  match get_item cal (name_from_path path) with
  | some item =>
    if ifMatch.getD item.etag = item.etag then
      let answer := deleteConfirmation path
      { resp := ⟨some 204, [("Content-Length", toString answer.length)],
          true, answer⟩,
        cal := store_delete path cal, answer := some answer }
    else { resp := resp412, cal := cal, answer := none }
  | none => { resp := resp412, cal := cal, answer := none }

/-- Result of `do_PUT`: the reply and the storage state afterwards, or an
uncaught exception (a failed `_decode`, a missing body, or an ETag lookup
on a vanished item). -/
inductive PutOut where
  | ok (resp : Response) (cal : Calendar)
  | crash
deriving DecidableEq

/-- The `201 Created` reply of `do_PUT` carrying the stored item's ETag. -/
def resp201 (etag : String) : Response := ⟨some 201, [("ETag", etag)], true, []⟩

/-- `do_PUT` (without its decorators), translated condition for condition:
allowed when `(not item and not headers.get("If-Match")) or (item and
headers.get("If-Match", item.etag) == item.etag)` — note the Python
truthiness test on the raw `If-Match` value in the first disjunct.  When
allowed, the body is decoded via `_decode` (whose exceptions propagate, as
does the `AttributeError` from a missing body), stored, and the freshly
stored item's ETag is read back for the `201` reply; otherwise the reply is
a bare `412`. -/
def do_PUT (enc : String) (contentType ifMatch : Option String)
    (content : Option (List Nat)) (path : String) (cal : Calendar) : PutOut :=
  let item_name := name_from_path path
  let item := get_item cal item_name
  let allowed := (item.isNone && !(optStrTruthy ifMatch)) ||
    (match item with
     | some it => ifMatch.getD it.etag == it.etag
     | none => false)
  if allowed then
    match content with
    | none => .crash
    | some body =>
      match udecode contentType enc body with
      | .ok icalRequest =>
        let newCal := store_put path icalRequest cal
        match get_item newCal item_name with
        | some it => .ok (resp201 it.etag) newCal
        | none => .crash
      | _ => .crash
  else .ok resp412 cal

/-- The status code of a `do_PUT` outcome. -/
def putStatus : PutOut → Option Nat
  | .ok r _ => r.status
  | .crash => none

/-- The storage state of a `do_PUT` outcome. -/
def putCalendar : PutOut → Option Calendar
  | .ok _ c => some c
  | .crash => none

/-! ## Concrete fixtures for witnesses and counterexamples -/

/-- A calendar with no items and no owner. -/
def calEmpty : Calendar := ⟨none, [], [], "", "", ""⟩

/-- A calendar owned by `bob` holding one item `ev.ics` with ETag `E1`. -/
def calOne : Calendar :=
  ⟨some "bob", [⟨"ev.ics", "E1", "DATA"⟩], [], "caltext", "CE", "LM"⟩

/-- An access-control collaborator that refuses every identity. -/
def denyAll : AclFun := fun _ _ _ => false

/-- The declared `Content-Type` charset, if any, names a known codec. -/
def declaredOk (contentType : Option String) : Prop :=
  ∀ ct d, contentType = some ct → declaredCharset ct = some d →
    knownCodec d = true

/-! ## Theorems -/

/-- `splitOnChar` never returns the empty list (as in Python, where
`s.split(sep)` always has at least one element). -/
theorem splitOnChar_ne_nil (sep : Char) (l : List Char) :
    splitOnChar sep l ≠ [] := by
  cases l with
  | nil => simp [splitOnChar]
  | cons c rest =>
    simp only [splitOnChar]
    split
    · simp
    · split <;> simp

theorem dropWhile_eq_nil_of_all {α : Type} {p : α → Bool} {l : List α}
    (h : ∀ a ∈ l, p a = true) : l.dropWhile p = [] := by
  induction l with
  | nil => rfl
  | cons a l ih =>
    rw [List.dropWhile_cons, if_pos (h a (by simp))]
    exact ih (fun x hx => h x (by simp [hx]))

theorem find?_name_filter (n : String) (l : List Item) :
    (l.filter (fun it => it.name ≠ n)).find? (fun it => it.name == n) = none := by
  induction l with
  | nil => rfl
  | cons it l ih =>
    by_cases h : it.name = n
    · simp only [List.filter_cons, h]
      simpa using ih
    · simp only [List.filter_cons, h]
      simpa [List.find?_cons, h] using ih

/-- After `xmlutils.delete`, the addressed item is gone. -/
theorem get_item_store_delete (path : String) (cal : Calendar) :
    get_item (store_delete path cal) (name_from_path path) = none := by
  unfold store_delete get_item
  cases h : name_from_path path with
  | none => rfl
  | some n => simpa using find?_name_filter n cal.items

/-- After `xmlutils.put`, the addressed item is present with the fresh
content and ETag. -/
theorem get_item_store_put (path s : String) (cal : Calendar) (n : String)
    (hn : name_from_path path = some n) :
    get_item (store_put path s cal) (some n) = some ⟨n, itemEtag s, s⟩ := by
  unfold store_put get_item
  rw [hn]
  simp [List.find?_cons]

/-- Claim C6 (refuting the universal statement): the resolver does map
`/a/../b/c.ics` and `/b` to the same address `b`, but the raw paths
`/../x` and `/x`, which differ only by a `..` traversal segment, resolve to
the different addresses `../x` and `x`; the former keeps a `..` segment,
escaping above the calendar namespace root — contradicting the code's own
comment that `normpath` "should clean malformed and malicious request
paths". -/
theorem path_traversal_escapes :
    calendarAddress "/a/../b/c.ics" = some "b" ∧
    calendarAddress "/b" = some "b" ∧
    calendarAddress "/../x" = some "../x" ∧
    calendarAddress "/x" = some "x" ∧
    calendarAddress "/../x" ≠ calendarAddress "/x" := by decide

/-- Claim C7 (counterexample): an empty raw path (or one consisting only of
slashes) does not resolve to an empty or undefined calendar address: it
resolves to the concrete address `"."` — `"".strip("/")` is `""`,
`posixpath.normpath("")` is `"."`, and splitting always yields at least one
segment, so the `if attributes:` guard never withholds a calendar. -/
theorem empty_path_resolves_concrete :
    calendarAddress "" = some "." ∧
    calendarAddress "/" = some "." ∧
    calendarAddress "///" = some "." ∧
    (some "." : Option String) ≠ none ∧ ("." : String) ≠ "" := by decide

/-- Claim C7 (amended): the resolver yields a calendar address for every
raw path — the split segment list is never empty, so the guard never
produces "no calendar" — and any path made only of slashes (including the
empty path) resolves to the concrete address `"."`. -/
theorem empty_path_amended (p : String) :
    (calendarAddress p).isSome = true ∧
    ((∀ c ∈ p.toList, c = '/') → calendarAddress p = some ".") := by
  constructor
  · unfold calendarAddress calendarAddressL icsAdjust
    rw [if_neg (splitOnChar_ne_nil '/' _)]
    split <;> simp
  · intro h
    have h1 : p.toList.dropWhile (· = '/') = [] :=
      dropWhile_eq_nil_of_all (fun a ha => by simp [h a ha])
    have hstrip : stripSlashesL p.toList = [] := by
      unfold stripSlashesL
      rw [h1]
      simp
    unfold calendarAddress calendarAddressL
    rw [hstrip]
    decide

/-- Claim C7 witness: the amended statement evaluated at `"//"`. -/
theorem empty_path_amended_witness :
    (calendarAddress "//").isSome = true ∧
    ((∀ c ∈ ("//" : String).toList, c = '/') →
      calendarAddress "//" = some ".") :=
  empty_path_amended "//"

/-- Claim C5 (code bug): an `Authorization: Basic` header whose decoded
payload contains no colon (here base64 of `nocolon`) does not fall through
to the denial path: the unpacking `user, password = ....split(":")` raises
an uncaught `ValueError`, aborting the request before any response — the
gate never reaches the `401` branch. -/
theorem malformed_basic_credentials_crash :
    extractCreds none "utf-8" (some "Basic bm9jb2xvbg==") = .raised ∧
    checkRights (some denyAll) false (some calOne)
      (some "Basic bm9jb2xvbg==") none "utf-8" (0 : Nat) = .crashed := by
  decide

/-- Claim C1 (counterexample): with no existing item and an If-Match header
that is present but empty, `do_PUT` performs the write and answers `201` —
the claim demands `412` and no write whenever If-Match is present while the
item is absent, but the code tests Python truthiness of the header value,
under which an empty string counts as absent. -/
theorem put_empty_ifmatch_cex :
    (some "" : Option String) ≠ none ∧
    putStatus (do_PUT "utf-8" none (some "") (some [66])
      "/cal/ev.ics" calEmpty) = some 201 ∧
    putCalendar (do_PUT "utf-8" none (some "") (some [66])
      "/cal/ev.ics" calEmpty) ≠ some calEmpty := by decide

/-- Claim C8 (counterexample): a `Content-Type` naming an unknown charset
makes `_decode` abort with an uncaught codec `LookupError` on the very
first candidate, even though a later candidate (`utf-8`) would decode the
body successfully — the claim says the first succeeding candidate's
decoding is returned and only a total failure raises. -/
theorem decode_unknown_declared_cex :
    udecode (some "text/calendar; charset=x-unknown") "utf-8" [65] =
      .raiseLookup ∧
    pydecode "utf-8" [65] = .ok "A" ∧
    PyDecodeOut.raiseLookup ≠ PyDecodeOut.ok "A" := by decide

/-- Claim C10 (counterexample): when the configured default charset does
not name a known codec, `_decode` aborts with an uncaught `LookupError`
instead of returning a decoded string, although the declared-charset
precondition of the claim is satisfied (no `Content-Type` header at
all). -/
theorem decode_unknown_default_cex :
    udecode none "x-unknown" [65] = .raiseLookup ∧
    PyDecodeOut.raiseLookup ≠ PyDecodeOut.ok "A" := by decide

/-- `headers.get("If-Match", etag) == etag` holds exactly when the header
is absent or equal to the ETag. -/
theorem getD_eq_iff (o : Option String) (e : String) :
    o.getD e = e ↔ (o = none ∨ o = some e) := by
  cases o <;> simp

/-- Claim C3: with an access-control collaborator configured and an owner
on the resolved calendar, a request whose extracted credentials (undefined
user and password when the `Authorization` header is absent) are refused by
`has_right` is answered with `401` and the Basic challenge header, and the
wrapped handler — universally quantified here — is never invoked. -/
theorem auth_denial_401 {α : Type} (acl : AclFun) (personal : Bool)
    (cal : Calendar) (o : String) (authHeader contentType : Option String)
    (enc : String) (u p : Option String) (handler : α)
    (howner : cal.owner = some o)
    (hext : extractCreds contentType enc authHeader = .ok u p)
    (hdeny : acl cal.owner u p = false) :
    checkRights (some acl) personal (some cal) authHeader contentType enc
      handler = .denied deniedResponse ∧
    deniedResponse.status = some 401 ∧
    wwwAuthHeader ∈ deniedResponse.rheaders ∧
    wwwAuthHeader.1 = "WWW-Authenticate" ∧
    extractCreds contentType enc none = .ok none none := by
  refine ⟨?_, rfl, by simp [deniedResponse], rfl, rfl⟩
  simp only [checkRights]
  rw [if_neg (by simp [howner])]
  simp only [hext, hdeny]
  simp

/-- Claim C3 witness: a request with no `Authorization` header against an
owned calendar under a refuse-everything collaborator. -/
theorem auth_denial_401_witness :
    checkRights (some denyAll) false (some calOne) none none "utf-8"
      (0 : Nat) = .denied deniedResponse ∧
    deniedResponse.status = some 401 ∧
    wwwAuthHeader ∈ deniedResponse.rheaders ∧
    wwwAuthHeader.1 = "WWW-Authenticate" ∧
    extractCreds none "utf-8" none = .ok none none :=
  auth_denial_401 denyAll false calOne "bob" none none "utf-8" none none 0
    rfl rfl rfl

/-- Claim C4: whenever no calendar is resolved, or no access-control
collaborator is configured, or the resolved calendar has no owner while
personal-calendar mode is enabled, the gate invokes the wrapped handler
directly — for every `Authorization` header, including none at all — so
every gated verb handler is reachable without credentials. -/
theorem auth_bypass_unchecked {α : Type} (aclOpt : Option AclFun)
    (personal : Bool) (calOpt : Option Calendar)
    (authHeader contentType : Option String) (enc : String) (handler : α)
    (h : calOpt = none ∨ aclOpt = none ∨
      (∃ cal, calOpt = some cal ∧ cal.owner = none ∧ personal = true)) :
    checkRights aclOpt personal calOpt authHeader contentType enc handler =
      .handled handler := by
  rcases h with h | h | ⟨cal, hc, ho, hp⟩
  · rw [h]; rfl
  · rw [h]; cases calOpt <;> rfl
  · rw [hc]
    cases aclOpt with
    | none => rfl
    | some acl =>
      simp only [checkRights]
      rw [if_pos ⟨ho, hp⟩]

/-- Claim C4 witness: with no collaborator configured, a credential-less
request reaches the handler. -/
theorem auth_bypass_unchecked_witness :
    checkRights (α := Nat) none false (some calOne) none none "utf-8" 5 =
      .handled 5 :=
  auth_bypass_unchecked none false (some calOne) none none "utf-8" 5
    (Or.inr (Or.inl rfl))

/-- Claim C2: `do_DELETE` deletes the item and answers `204 No Content`
with the confirmation payload as body and its length as `Content-Length`
exactly when the addressed item exists and `If-Match` is absent or equal to
its ETag (the deleted item is then gone from the store); in every other
case — in particular whenever the item does not exist — it answers a bare
`412 Precondition Failed` with no body and leaves the store untouched. -/
theorem delete_conditional (ifMatch : Option String) (path : String)
    (cal : Calendar) :
    ((∃ it, get_item cal (name_from_path path) = some it ∧
        (ifMatch = none ∨ ifMatch = some it.etag)) →
      do_DELETE ifMatch path cal =
        { resp := ⟨some 204,
            [("Content-Length", toString (deleteConfirmation path).length)],
            true, deleteConfirmation path⟩,
          cal := store_delete path cal,
          answer := some (deleteConfirmation path) } ∧
      get_item (store_delete path cal) (name_from_path path) = none) ∧
    ((¬ ∃ it, get_item cal (name_from_path path) = some it ∧
        (ifMatch = none ∨ ifMatch = some it.etag)) →
      do_DELETE ifMatch path cal =
        { resp := resp412, cal := cal, answer := none }) := by
  constructor
  · rintro ⟨it, hit, him⟩
    refine ⟨?_, get_item_store_delete path cal⟩
    unfold do_DELETE
    simp only [hit]
    rw [if_pos ((getD_eq_iff ifMatch it.etag).mpr him)]
  · intro h
    unfold do_DELETE
    cases hit : get_item cal (name_from_path path) with
    | none => simp only []
    | some it =>
      simp only []
      rw [if_neg]
      intro he
      exact h ⟨it, hit, (getD_eq_iff ifMatch it.etag).mp he⟩

/-- Claim C2 witness: deleting the existing item `ev.ics` of `calOne` with
the matching `If-Match: E1`. -/
theorem delete_conditional_witness :
    do_DELETE (some "E1") "/cal/ev.ics" calOne =
      { resp := ⟨some 204,
          [("Content-Length",
            toString (deleteConfirmation "/cal/ev.ics").length)],
          true, deleteConfirmation "/cal/ev.ics"⟩,
        cal := store_delete "/cal/ev.ics" calOne,
        answer := some (deleteConfirmation "/cal/ev.ics") } ∧
    get_item (store_delete "/cal/ev.ics" calOne)
      (name_from_path "/cal/ev.ics") = none :=
  (delete_conditional (some "E1") "/cal/ev.ics" calOne).1
    ⟨⟨"ev.ics", "E1", "DATA"⟩, by decide, Or.inr rfl⟩

/-- Evaluation of `do_PUT` when the path addresses an item and the body
decodes: the outcome is the `201`-plus-write result or the bare `412`,
according to the translated allowance condition. -/
theorem do_PUT_eval (enc : String) (contentType ifMatch : Option String)
    (body : List Nat) (path : String) (cal : Calendar) (n s : String)
    (hn : name_from_path path = some n)
    (hd : udecode contentType enc body = .ok s) :
    do_PUT enc contentType ifMatch (some body) path cal =
      if ((get_item cal (some n)).isNone && !(optStrTruthy ifMatch)) ||
         (match get_item cal (some n) with
          | some it => ifMatch.getD it.etag == it.etag
          | none => false) then
        .ok (resp201 (itemEtag s)) (store_put path s cal)
      else .ok resp412 cal := by
  have hget := get_item_store_put path s cal n hn
  simp only [do_PUT, hn, hd, hget]

/-- Claim C1 (amended): for a request addressing an item (the path's final
segment names an `.ics` item) whose body is present and decodes, `do_PUT`
stores the decoded text and answers `201 Created` carrying the freshly
stored item's ETag exactly when either the item does not exist and the
`If-Match` header is absent **or empty** (Python truthiness), or the item
exists and `If-Match` is absent or equal to its current ETag; in every
other combination it answers a bare `412 Precondition Failed` and leaves
the store untouched. -/
theorem put_conditional_amended (enc : String)
    (contentType ifMatch : Option String) (body : List Nat) (path : String)
    (cal : Calendar) (n s : String)
    (hn : name_from_path path = some n)
    (hd : udecode contentType enc body = .ok s) :
    (((get_item cal (some n) = none ∧ (ifMatch = none ∨ ifMatch = some "")) ∨
      (∃ it, get_item cal (some n) = some it ∧
        (ifMatch = none ∨ ifMatch = some it.etag))) →
      do_PUT enc contentType ifMatch (some body) path cal =
        .ok (resp201 (itemEtag s)) (store_put path s cal) ∧
      (get_item (store_put path s cal) (some n)).map Item.etag =
        some (itemEtag s)) ∧
    ((¬ ((get_item cal (some n) = none ∧
          (ifMatch = none ∨ ifMatch = some "")) ∨
      (∃ it, get_item cal (some n) = some it ∧
        (ifMatch = none ∨ ifMatch = some it.etag)))) →
      do_PUT enc contentType ifMatch (some body) path cal =
        .ok resp412 cal) := by
  rw [do_PUT_eval enc contentType ifMatch body path cal n s hn hd]
  constructor
  · intro hcond
    refine ⟨?_, by rw [get_item_store_put path s cal n hn]; rfl⟩
    have hallowed : (((get_item cal (some n)).isNone &&
        !(optStrTruthy ifMatch)) ||
        (match get_item cal (some n) with
         | some it => ifMatch.getD it.etag == it.etag
         | none => false)) = true := by
      rcases hcond with ⟨hnone, him⟩ | ⟨it, hit, him⟩
      · rw [hnone]
        rcases him with h | h <;> simp [h, optStrTruthy]
      · rw [hit]
        rcases him with h | h <;> simp [h, optStrTruthy]
    rw [if_pos hallowed]
  · intro hncond
    have hfalse : (((get_item cal (some n)).isNone &&
        !(optStrTruthy ifMatch)) ||
        (match get_item cal (some n) with
         | some it => ifMatch.getD it.etag == it.etag
         | none => false)) = false := by
      cases hg : get_item cal (some n) with
      | none =>
        cases hm : ifMatch with
        | none => exact absurd (Or.inl ⟨hg, Or.inl hm⟩) hncond
        | some v =>
          by_cases hv : v = ""
          · exact absurd (Or.inl ⟨hg, Or.inr (by rw [hm, hv])⟩) hncond
          · simp [hm, optStrTruthy, hv]
      | some it =>
        cases hm : ifMatch with
        | none => exact absurd (Or.inr ⟨it, hg, Or.inl hm⟩) hncond
        | some v =>
          by_cases hv : v = it.etag
          · exact absurd (Or.inr ⟨it, hg, Or.inr (by rw [hm, hv])⟩) hncond
          · simp [hm, optStrTruthy, hv]
    rw [if_neg (by simp [hfalse])]

/-- Claim C1 witness: creating `ev.ics` in an empty calendar with no
`If-Match` header succeeds with `201` and the new item's ETag. -/
theorem put_conditional_amended_witness :
    do_PUT "utf-8" none none (some [66]) "/cal/ev.ics" calEmpty =
      .ok (resp201 (itemEtag "B")) (store_put "/cal/ev.ics" "B" calEmpty) ∧
    (get_item (store_put "/cal/ev.ics" "B" calEmpty) (some "ev.ics")).map
      Item.etag = some (itemEtag "B") :=
  (put_conditional_amended "utf-8" none none [66] "/cal/ev.ics" calEmpty
    "ev.ics" "B" (by decide) (by decide)).1
    (Or.inl ⟨by decide, Or.inl rfl⟩)

/-- Claim C9: `do_GET` replies with exactly the status and headers of
`do_HEAD` on the same resource state; the `Content-Length` header `do_HEAD`
declares is precisely the length of the buffered answer (absent exactly
when there is no answer); and `do_GET` writes as body exactly the buffered
answer — nothing when `do_HEAD` yields none (missing item, `410 Gone`). -/
theorem get_head_consistency (path : String) (cal : Calendar) :
    (do_GET path cal).resp.status = (do_HEAD path cal).resp.status ∧
    (do_GET path cal).resp.rheaders = (do_HEAD path cal).resp.rheaders ∧
    hget (do_HEAD path cal).resp.rheaders "Content-Length" =
      (do_HEAD path cal).answer.map (fun a => toString a.length) ∧
    (do_GET path cal).resp.body = (do_HEAD path cal).answer.getD [] := by
  have hbody : (do_HEAD path cal).resp.body = [] := by
    simp only [do_HEAD, headOk]
    split
    · split <;> rfl
    · rfl
  have hCL : hget (do_HEAD path cal).resp.rheaders "Content-Length" =
      (do_HEAD path cal).answer.map (fun a => toString a.length) := by
    simp only [do_HEAD, headOk]
    split
    · split <;> simp [hget]
    · simp [hget]
  refine ⟨?_, ?_, hCL, ?_⟩ <;>
  · simp only [do_GET]
    cases ha : (do_HEAD path cal).answer with
    | none => simp [hbody]
    | some a =>
      by_cases hae : a = []
      · simp [hae, hbody]
      · simp [hae, hbody]

/-- Claim C8 (amended): `_decode` builds its candidate list in the exact
order declared-charset, configured default, `utf-8`, `iso8859-1`; among
candidates naming known codecs it returns the decoding under the first
candidate that succeeds, and reaches the final all-candidates-failed raise
exactly when every candidate fails with a `UnicodeDecodeError`; in
particular a body that is invalid UTF-8, declared with no charset against a
configured default of `utf-8`, decodes to exactly the direct `iso8859-1`
decoding.  (Amendment: a candidate naming an unknown codec instead aborts
the whole decode with an uncaught `LookupError` — the `except` clause
catches only `UnicodeDecodeError`.) -/
theorem decode_order_first_success_amended :
    (∀ ct enc c, declaredCharset ct = some c →
      buildCharsets (some ct) enc = [c, enc, "utf-8", "iso8859-1"]) ∧
    (∀ enc, buildCharsets none enc = [enc, "utf-8", "iso8859-1"]) ∧
    (∀ text s c cs₁ cs₂, (∀ x ∈ cs₁, pydecode x text = .unicodeError) →
      pydecode c text = .ok s →
      tryDecode text (cs₁ ++ c :: cs₂) = .ok s) ∧
    (∀ text cs, tryDecode text cs = .raiseAllFailed ↔
      ∀ x ∈ cs, pydecode x text = .unicodeError) ∧
    (∀ text, utf8Decode text = none →
      udecode none "utf-8" text = .ok (latin1Decode text)) := by
  refine ⟨?_, fun enc => rfl, ?_, ?_, ?_⟩
  · intro ct enc c h
    simp [buildCharsets, h]
  · intro text s c cs₁ cs₂ hfail hok
    induction cs₁ with
    | nil => simp [tryDecode, hok]
    | cons x cs₁ ih =>
      have hx := hfail x (by simp)
      simp only [List.cons_append, tryDecode, hx]
      exact ih (fun y hy => hfail y (by simp [hy]))
  · intro text cs
    induction cs with
    | nil => simp [tryDecode]
    | cons c cs ih =>
      cases hc : pydecode c text with
      | ok s => simp [tryDecode, hc]
      | unicodeError => simp [tryDecode, hc, ih]
      | lookupError => simp [tryDecode, hc]
  · intro text h
    simp [udecode, buildCharsets, declaredCharset, tryDecode, pydecode, h]

/-- Claim C8 witness: the in-particular scenario at the invalid-UTF-8 body
`0xE9`, which falls through to `iso8859-1`. -/
theorem decode_order_first_success_amended_witness :
    udecode none "utf-8" [233] = .ok (latin1Decode [233]) :=
  decode_order_first_success_amended.2.2.2.2 [233] (by decide)

/-- A candidate list of known codecs followed by the `iso8859-1` fallback
always decodes successfully: known codecs either succeed or fail with
`UnicodeDecodeError`, and `iso8859-1` never fails. -/
theorem tryDecode_known_append (text : List Nat) (cs : List String)
    (h : ∀ c ∈ cs, knownCodec c = true) :
    ∃ s, tryDecode text (cs ++ ["iso8859-1"]) = .ok s := by
  induction cs with
  | nil => exact ⟨latin1Decode text, by simp [tryDecode, pydecode]⟩
  | cons c cs ih =>
    have hc : c = "utf-8" ∨ c = "iso8859-1" := by
      have := h c (by simp)
      simpa [knownCodec] using this
    obtain ⟨s, hs⟩ := ih (fun y hy => h y (by simp [hy]))
    rcases hc with hc | hc
    · subst hc
      cases hu : utf8Decode text with
      | some cs2 =>
        exact ⟨String.mk cs2, by simp [tryDecode, pydecode, hu]⟩
      | none =>
        exact ⟨s, by simp only [List.cons_append, tryDecode, pydecode, hu,
          if_pos rfl]; exact hs⟩
    · subst hc
      exact ⟨latin1Decode text, by simp [tryDecode, pydecode]⟩

/-- Claim C10 (amended): provided the declared `Content-Type` charset (if
any) **and the configured default charset** name known codecs, `_decode`
returns a decoded string for every byte-string input — the `iso8859-1`
final candidate never fails — and the final raise after exhausting all
candidates is never reached. -/
theorem decode_totality_amended (contentType : Option String) (enc : String)
    (text : List Nat) (hct : declaredOk contentType)
    (henc : knownCodec enc = true) :
    (∃ s, udecode contentType enc text = .ok s) ∧
    udecode contentType enc text ≠ .raiseAllFailed := by
  have hmain : ∃ s, udecode contentType enc text = .ok s := by
    unfold udecode
    cases hcto : contentType with
    | none =>
      have : buildCharsets none enc = [enc, "utf-8"] ++ ["iso8859-1"] := rfl
      rw [this]
      refine tryDecode_known_append text [enc, "utf-8"] ?_
      intro c hcm
      simp only [List.mem_cons, List.not_mem_nil, or_false] at hcm
      rcases hcm with rfl | rfl
      · exact henc
      · decide
    | some ct =>
      cases hdc : declaredCharset ct with
      | none =>
        have : buildCharsets (some ct) enc = [enc, "utf-8"] ++ ["iso8859-1"] := by
          simp [buildCharsets, hdc]
        rw [this]
        refine tryDecode_known_append text [enc, "utf-8"] ?_
        intro c hcm
        simp only [List.mem_cons, List.not_mem_nil, or_false] at hcm
        rcases hcm with rfl | rfl
        · exact henc
        · decide
      | some d =>
        have hbc : buildCharsets (some ct) enc =
            [d, enc, "utf-8"] ++ ["iso8859-1"] := by
          simp [buildCharsets, hdc]
        rw [hbc]
        refine tryDecode_known_append text [d, enc, "utf-8"] ?_
        intro c hcm
        simp only [List.mem_cons, List.not_mem_nil, or_false] at hcm
        rcases hcm with rfl | rfl | rfl
        · exact hct ct c hcto hdc
        · exact henc
        · decide
  obtain ⟨s, hs⟩ := hmain
  exact ⟨⟨s, hs⟩, by simp [hs]⟩

/-- Claim C10 witness: the amended statement at the zero byte with no
declared charset and the stock `utf-8` default. -/
theorem decode_totality_amended_witness :
    (∃ s, udecode none "utf-8" [0] = .ok s) ∧
    udecode none "utf-8" [0] ≠ .raiseAllFailed :=
  decode_totality_amended none "utf-8" [0] (fun _ _ h _ => nomatch h) rfl
